import Mathlib

/-!
Verification of the Jam Session synchronization engine of `app.py`.

The server keeps an in-memory registry `active_jams` mapping a short session
id to a mutable session dictionary.  One websocket handler
(`websocket_jam_endpoint`) assigns roles, dispatches inbound messages and
triggers broadcasts; helper coroutines (`broadcast_to_guests`,
`broadcast_chat_message`) fan a payload out to the participants, and a
background task (`cleanup_inactive_sessions`) evicts silent sessions.

Time is modelled as a rational number of seconds (the code uses
`time.time()` floats only for comparisons and subtraction of small values,
which the rationals reproduce exactly).  Websocket connections are modelled
by numeric connection ids; a send to a connection listed in a `dead` set
fails, every other send succeeds.
-/

namespace AudioJam

/-- A websocket connection identifier. -/
abbrev ConnId := Nat

/-- A track descriptor as stored in `playlist` / `current_song`
(the dictionary fields the server actually inspects). -/
structure Track where
  id : String
  url : String
  title : String
deriving DecidableEq, Repr

/-- A guest entry of `jam["guests"]`: connection, display name, join time
and per-guest heartbeat stamp. -/
structure Guest where
  ws : ConnId
  name : String
  join_time : String
  last_heartbeat : ℚ
deriving DecidableEq, Repr

/-- The `jam["host"]` record: an optional live connection plus the host
display name. -/
structure Host where
  ws : Option ConnId
  name : String
deriving DecidableEq, Repr

/-- One session dictionary of `active_jams`. -/
structure Jam where
  host : Host
  guests : List Guest
  current_song : Option Track
  playlist : List Track
  is_playing : Bool
  position : ℚ
  volume : ℚ
  created_at : String
  last_update_time : ℚ
  last_heartbeat : ℚ
deriving DecidableEq, Repr

/-- The in-memory session registry `active_jams` (a Python dict; keys are
unique in any state the program can reach). -/
abbrev Registry := List (String × Jam)

/-- Dictionary lookup `active_jams.get(jam_id)`. -/
def regFind (reg : Registry) (jamId : String) : Option Jam :=
  (reg.find? (fun q => q.1 == jamId)).map (fun q => q.2)

/-- Dictionary removal `active_jams.pop(jam_id, None)`. -/
def regErase (reg : Registry) (jamId : String) : Registry :=
  reg.filter (fun q => !(q.1 == jamId))

/-- In-place mutation of the session stored under `jam_id`. -/
def regUpdate (reg : Registry) (jamId : String) (jam : Jam) : Registry :=
  reg.map (fun q => if q.1 == jamId then (q.1, jam) else q)

/-- Character class of `validate_username`: alphanumeric, space, hyphen or
underscore. -/
def valid_name_char (c : Char) : Bool :=
  c.isAlphanum || c == ' ' || c == '-' || c == '_'

/-- `validate_username`: non-empty, length 3 to 20, restricted charset
(string contents are handled through their character lists). -/
def validate_username (name : String) : Bool :=
  if name.data.isEmpty ∨ name.data.length < 3 ∨ name.data.length > 20 then false
  else name.data.all valid_name_char

/-- The Python `str.strip()`: whitespace removed from both ends. -/
def py_strip (l : List Char) : List Char :=
  ((l.dropWhile Char.isWhitespace).reverse.dropWhile Char.isWhitespace).reverse

/-- `validate_message`: rejects empty or whitespace-only text, accepts up
to 500 characters. -/
def validate_message (m : String) : Bool :=
  if m.data.isEmpty ∨ (py_strip m.data).length = 0 then false
  else decide (m.data.length ≤ 500)

/-- The raw `ws.send_bytes` call: fails exactly on dead connections. -/
def send_bytes (dead : List ConnId) (c : ConnId) : Except Unit Unit :=
  if c ∈ dead then Except.error () else Except.ok ()

/-- `send_compressed`: wraps the send in a try/except that swallows every
failure (it only logs at debug level), so the caller never sees an error. -/
def send_compressed (dead : List ConnId) (c : ConnId) : Except Unit Unit :=
  match send_bytes dead c with
  | Except.ok _ => Except.ok ()
  | Except.error _ => Except.ok ()

/-- Whether the `await send_compressed(...)` line completes without raising
(the branch `broadcast_to_guests` uses to decide pruning). -/
def send_ok (dead : List ConnId) (c : ConnId) : Bool :=
  match send_compressed dead c with
  | Except.ok _ => true
  | Except.error _ => false

/-- `broadcast_to_guests`: attempts one send per guest, keeps the guests
whose send did not raise, and returns the list of delivery attempts
(connection id paired with the message tag). -/
def broadcast_to_guests (dead : List ConnId) (jam : Jam) (msg : String) :
    Jam × List (ConnId × String) :=
  ({ jam with guests := jam.guests.filter (fun g => send_ok dead g.ws) },
   jam.guests.map (fun g => (g.ws, msg)))

/-- The chat payload built by `broadcast_chat_message`; `is_host` is
computed from the sender name, not from the sending connection role. -/
structure ChatPayload where
  sender : String
  message : String
  timestamp : String
  is_host : Bool
deriving DecidableEq, Repr

/-- Construction of the chat dictionary in `broadcast_chat_message`. -/
def chat_payload (jam : Jam) (sender message timestamp : String) : ChatPayload :=
  { sender := sender, message := message, timestamp := timestamp,
    is_host := sender == jam.host.name }

/-- `broadcast_chat_message`: builds the payload, sends it to the host (if
connected) and to every guest; returns the updated session, the payload and
the attempted recipient connections. -/
def broadcast_chat_message (dead : List ConnId) (jam : Jam)
    (sender message timestamp : String) : Jam × ChatPayload × List ConnId :=
  let chat := chat_payload jam sender message timestamp
  let b := broadcast_to_guests dead jam "chat_message"
  (b.1, chat, jam.host.ws.toList ++ b.2.map (fun p => p.1))

/-- `create_jam`: the fresh session dictionary inserted into `active_jams`. -/
def create_jam (name : String) (created_clock : String) (now : ℚ) : Jam :=
  { host := { ws := none, name := name }, guests := [],
    current_song := none, playlist := [], is_playing := false,
    position := 0, volume := 1, created_at := created_clock,
    last_update_time := 0, last_heartbeat := now }

/-- The snapshot served by the `get-jam-playlist` route. -/
structure Snapshot where
  current_song : Option Track
  playlist : List Track
  is_playing : Bool
  position : ℚ
  volume : ℚ
  host_name : String
  guest_names : List (String × String)
  created_at : String
deriving DecidableEq, Repr

/-- `get_jam_playlist`: `none` models the 404 "Jam not found" response. -/
def get_jam_playlist (reg : Registry) (jamId : String) : Option Snapshot :=
  (regFind reg jamId).map (fun jam =>
    { current_song := jam.current_song, playlist := jam.playlist,
      is_playing := jam.is_playing, position := jam.position,
      volume := jam.volume, host_name := jam.host.name,
      guest_names := jam.guests.map (fun g => (g.name, g.join_time)),
      created_at := jam.created_at })

/-- Inbound client messages, one constructor per `type` value the endpoint
inspects; absent JSON fields are `none`. -/
inductive CMsg where
  | host_update (ip : Option Bool) (pos : Option ℚ) (vol : Option ℚ)
  | host_init (song : Option Track) (pl : Option (List Track))
      (ip : Option Bool) (pos : Option ℚ) (vol : Option ℚ)
  | song_change (song : Option Track)
  | playlist_update (pl : Option (List Track))
  | chat_message (message : String)
  | sync_request
  | host_seek (pos : Option ℚ)
  | host_ended
  | unrecognized
deriving DecidableEq, Repr

/-- Server-to-client emissions produced while handling one message. -/
inductive Out where
  | sync_to_guests (song : Option Track) (ip : Bool) (pos vol : ℚ)
  | song_change_to_guests (song : Option Track) (ip : Bool) (pos : ℚ)
  | playlist_to_guests (pl : List Track)
  | seek_to_guests (pos : ℚ)
  | participants_update
  | chat_all (sender message timestamp : String)
  | sync_to_conn (c : ConnId) (song : Option Track) (ip : Bool) (pos vol : ℚ)
deriving DecidableEq, Repr

/-- The recipients a given emission is attempted on (broadcasts to guests
go through `broadcast_to_guests`; chat and participant updates also reach
the host; a sync reply goes only to the requesting connection). -/
def out_recipients (jam : Jam) : Out → List ConnId
  | .sync_to_guests _ _ _ _ => jam.guests.map (fun g => g.ws)
  | .song_change_to_guests _ _ _ => jam.guests.map (fun g => g.ws)
  | .playlist_to_guests _ => jam.guests.map (fun g => g.ws)
  | .seek_to_guests _ => jam.guests.map (fun g => g.ws)
  | .participants_update => jam.host.ws.toList ++ jam.guests.map (fun g => g.ws)
  | .chat_all _ _ _ => jam.host.ws.toList ++ jam.guests.map (fun g => g.ws)
  | .sync_to_conn c _ _ _ _ => [c]

/-- The per-guest heartbeat update: find the first guest on this
connection and stamp it (the loop breaks after the first match). -/
def touch_guest (conn : ConnId) (now : ℚ) : List Guest → List Guest
  | [] => []
  | g :: gs =>
      if g.ws == conn then { g with last_heartbeat := now } :: gs
      else g :: touch_guest conn now gs

/-- Lines 397-404 of the endpoint: a host message stamps the session-level
`last_heartbeat` (the field the cleanup sweep reads); a guest message
stamps only that guest entry. -/
def update_heartbeats (is_host : Bool) (conn : ConnId) (now : ℚ) (jam : Jam) : Jam :=
  if is_host then { jam with last_heartbeat := now }
  else { jam with guests := touch_guest conn now jam.guests }

/-- Index of the track that follows the current song in the playlist:
position after the first playlist entry whose id matches the current song
(wrapping), or 0 when no entry matches. -/
def song_id_matches (current : Option Track) (s : Track) : Bool :=
  match current with
  | none => false
  | some c => s.id == c.id

/-- The `next_index` computation of the `host_ended` branch. -/
def next_song_index (pl : List Track) (current : Option Track) : Nat :=
  match pl.findIdx? (song_id_matches current) with
  | some i => (i + 1) % pl.length
  | none => 0

/-- The Active-state body of `websocket_jam_endpoint` for one successfully
parsed message: heartbeat stamping followed by the role-gated dispatch.
Returns the mutated session and the emissions it triggers. -/
def handle_message (is_host : Bool) (username : String) (conn : ConnId)
    (now : ℚ) (clock : String) (jam0 : Jam) (msg : CMsg) : Jam × List Out :=
  let jam := update_heartbeats is_host conn now jam0
  if is_host then
    match msg with
    | .host_update ip pos vol =>
        if now - jam.last_update_time < 1/20 then (jam, [])
        else
          let jam1 : Jam := { jam with
            last_update_time := now,
            is_playing := ip.getD jam.is_playing,
            position := pos.getD jam.position,
            volume := vol.getD jam.volume }
          (jam1, [Out.sync_to_guests jam1.current_song jam1.is_playing
                    jam1.position jam1.volume])
    | .host_init song pl ip pos vol =>
        let jam1 : Jam := { jam with
          current_song := song,
          playlist := pl.getD jam.playlist,
          is_playing := ip.getD false,
          position := pos.getD 0,
          volume := vol.getD jam.volume }
        (jam1, [Out.participants_update])
    | .song_change song =>
        let jam1 : Jam := { jam with
          current_song := song, is_playing := true, position := 0 }
        (jam1, [Out.song_change_to_guests song true 0])
    | .playlist_update pl =>
        let jam1 : Jam := { jam with playlist := pl.getD jam.playlist }
        (jam1, [Out.playlist_to_guests jam1.playlist])
    | .chat_message m =>
        if validate_message m then (jam, [Out.chat_all username m clock])
        else (jam, [])
    | .sync_request => (jam, [])
    | .host_seek pos =>
        let jam1 : Jam := { jam with position := pos.getD jam.position }
        (jam1, [Out.seek_to_guests jam1.position])
    | .host_ended =>
        if jam.playlist.isEmpty then (jam, [])
        else
          let ns := jam.playlist.get? (next_song_index jam.playlist jam.current_song)
          let jam1 : Jam := { jam with
            current_song := ns, is_playing := ns.isSome, position := 0 }
          (jam1, [Out.song_change_to_guests jam1.current_song jam1.is_playing 0])
    | .unrecognized => (jam, [])
  else
    match msg with
    | .sync_request =>
        (jam, [Out.sync_to_conn conn jam.current_song jam.is_playing
                 jam.position jam.volume])
    | .chat_message m =>
        if validate_message m then (jam, [Out.chat_all username m clock])
        else (jam, [])
    | _ => (jam, [])

/-- Feeding a timed list of messages through the receive loop. -/
def run_messages (is_host : Bool) (username : String) (conn : ConnId)
    (clock : String) : Jam → List (ℚ × CMsg) → Jam × List Out
  | jam, [] => (jam, [])
  | jam, (t, m) :: rest =>
      let r := handle_message is_host username conn t clock jam m
      let r2 := run_messages is_host username conn clock r.1 rest
      (r2.1, r.2 ++ r2.2)

/-- Outcome of the connect phase of `websocket_jam_endpoint`. -/
inductive JoinOutcome where
  | rejected (reason : String)
  | joined (as_host : Bool)
deriving DecidableEq, Repr

/-- The connect phase: username validation, session lookup, role
assignment, guest-name collision check, and the session heartbeat stamp. -/
def websocket_join (reg : Registry) (jamId : String) (username : String)
    (conn : ConnId) (now : ℚ) (join_clock : String) : Registry × JoinOutcome :=
  if validate_username username then
    match regFind reg jamId with
    | none => (reg, JoinOutcome.rejected "Jam session not found")
    | some jam =>
        if jam.host.ws = none then
          let jam1 : Jam := { jam with
            host := { ws := some conn, name := username },
            last_heartbeat := now }
          (regUpdate reg jamId jam1, JoinOutcome.joined true)
        else if jam.guests.any (fun g => g.name == username) then
          (reg, JoinOutcome.rejected "Username already taken")
        else
          let g : Guest := { ws := conn, name := username,
                             join_time := join_clock, last_heartbeat := now }
          let jam1 : Jam := { jam with
            guests := jam.guests ++ [g], last_heartbeat := now }
          (regUpdate reg jamId jam1, JoinOutcome.joined false)
  else (reg, JoinOutcome.rejected "Invalid username")

/-- The `WebSocketDisconnect` cleanup when the closing connection was the
host: broadcast `jam_ended` to the guests, attempt to close each remaining
guest socket, pop the session.  Returns the new registry, the broadcast
delivery attempts and the close attempts. -/
def handle_host_disconnect (dead : List ConnId) (reg : Registry)
    (jamId : String) : Registry × List (ConnId × String) × List ConnId :=
  match regFind reg jamId with
  | none => (reg, [], [])
  | some jam =>
      let b := broadcast_to_guests dead jam "jam_ended"
      let closes := b.1.guests.map (fun g => g.ws)
      (regErase (regUpdate reg jamId b.1) jamId, b.2, closes)

/-- The eviction test of `cleanup_inactive_sessions`. -/
def session_expired (now : ℚ) (jam : Jam) : Bool :=
  decide (now - jam.last_heartbeat > 300)

/-- One iteration of the `cleanup_inactive_sessions` sweep: sessions whose
`last_heartbeat` is older than 300 seconds are popped after a close attempt
on each of their guest connections.  Returns the surviving registry and the
connections the sweep attempted to close. -/
def cleanup_inactive_sessions (now : ℚ) (reg : Registry) :
    Registry × List ConnId :=
  (reg.filter (fun q => !(session_expired now q.2)),
   (reg.filter (fun q => session_expired now q.2)).flatMap
     (fun q => q.2.guests.map (fun g => g.ws)))

/-- The message types the spec calls playback-mutating: state update,
song change, playlist replace, seek, song-ended advance and host_init. -/
def is_playback_message : CMsg → Bool
  | .host_update _ _ _ => true
  | .host_init _ _ _ _ _ => true
  | .song_change _ => true
  | .playlist_update _ => true
  | .host_seek _ => true
  | .host_ended => true
  | _ => false

/-- Whether a message is a `host_update` (the spec name is
`player_state_update`). -/
def is_host_update : CMsg → Bool
  | .host_update _ _ _ => true
  | _ => false

/-- Whether an emission is a `sync` broadcast to the guests. -/
def is_sync_out : Out → Bool
  | .sync_to_guests _ _ _ _ => true
  | _ => false

/-- Number of `sync` broadcasts among a list of emissions. -/
def sync_count (outs : List Out) : Nat :=
  (outs.filter is_sync_out).length

/-- The subsequence of arrival times the `host_update` throttle accepts,
starting from a given `last_update_time`. -/
def accepted_update_times : ℚ → List ℚ → List ℚ
  | _, [] => []
  | last, t :: ts =>
      if t - last < 1/20 then accepted_update_times last ts
      else t :: accepted_update_times t ts

/-- Whether the volume field a message carries (if any) lies in 0..1. -/
def vol_msg_in_range : CMsg → Bool
  | .host_update _ _ (some v) => decide (0 ≤ v ∧ v ≤ 1)
  | .host_init _ _ _ _ (some v) => decide (0 ≤ v ∧ v ≤ 1)
  | _ => true

/-! ### Concrete fixtures used by counterexamples and witnesses -/

/-- A sample track. -/
def trackA : Track := { id := "a", url := "ua", title := "Song A" }

/-- A second sample track. -/
def trackB : Track := { id := "b", url := "ub", title := "Song B" }

/-- A sample guest on connection 1. -/
def guestBob : Guest :=
  { ws := 1, name := "Bob", join_time := "12:00:00", last_heartbeat := 0 }

/-- A second sample guest on connection 2. -/
def guestCarol : Guest :=
  { ws := 2, name := "Carol", join_time := "12:00:05", last_heartbeat := 0 }

/-- A sample session: host Alice on connection 0, guest Bob on
connection 1, empty playlist. -/
def jamEx : Jam :=
  { host := { ws := some 0, name := "Alice" }, guests := [guestBob],
    current_song := none, playlist := [], is_playing := false,
    position := 0, volume := 1, created_at := "2026-01-01 10:00:00",
    last_update_time := 0, last_heartbeat := 0 }

/-- A session with a two-track playlist currently playing track A. -/
def jamTwoTracks : Jam :=
  { jamEx with current_song := some trackA, playlist := [trackA, trackB],
               is_playing := true }

/-- A session with two guests (connections 1 and 2). -/
def jamTwoGuests : Jam := { jamEx with guests := [guestBob, guestCarol] }

/-- A one-session registry under the id "j". -/
def regEx : Registry := [("j", jamEx)]

/-! ### Helper lemmas -/

/-- `send_compressed` swallows every failure, so the caller always sees a
successful completion. -/
lemma send_ok_eq_true (dead : List ConnId) (c : ConnId) : send_ok dead c = true := by
  by_cases h : c ∈ dead <;> simp [send_ok, send_compressed, send_bytes, h]

/-- Consequently `broadcast_to_guests` never changes the session. -/
lemma broadcast_to_guests_fst (dead : List ConnId) (jam : Jam) (msg : String) :
    (broadcast_to_guests dead jam msg).1 = jam := by
  simp [broadcast_to_guests, send_ok_eq_true]

/-- A key absent from the association list is not found. -/
lemma regFind_eq_none_of_not_mem :
    ∀ (reg : Registry) (jamId : String),
      jamId ∉ reg.map Prod.fst → regFind reg jamId = none := by
  intro reg
  induction reg with
  | nil => intro jamId _; rfl
  | cons q reg ih =>
      intro jamId h
      simp only [List.map_cons, List.mem_cons] at h
      push_neg at h
      have hne : (q.1 == jamId) = false := by
        simp [beq_eq_false_iff_ne]
        exact fun hq => h.1 hq.symm
      simp [regFind, List.find?, hne]
      have := ih jamId h.2
      simpa [regFind] using this

/-- Popping a session makes it unfindable. -/
lemma regFind_erase_self (reg : Registry) (jamId : String) :
    regFind (regErase reg jamId) jamId = none := by
  apply regFind_eq_none_of_not_mem
  intro hmem
  rw [List.mem_map] at hmem
  obtain ⟨q, hq, hfst⟩ := hmem
  obtain ⟨_, hq2⟩ := List.mem_filter.mp hq
  rw [hfst] at hq2
  simp at hq2

/-! ### Claim C1 -/

/-- C1 counterexample: a guest on connection 1 sends `song_change` with a
concrete track; the session keeps `current_song = none` and no broadcast is
produced, refuting the claim that any participant may drive shared state. -/
theorem guest_song_change_ignored_cex :
    (handle_message false "Bob" 1 100 "12:01" jamEx
        (CMsg.song_change (some trackA))).1.current_song = none
    ∧ (handle_message false "Bob" 1 100 "12:01" jamEx
        (CMsg.song_change (some trackA))).2 = [] := by
  constructor <;> rfl

/-- C1 (amended): in the Active state every playback-mutating message from
a guest is ignored — the session is left unchanged apart from the guest
heartbeat stamp and no broadcast is triggered; playback control is gated to
the host, not only `host_init`. -/
theorem playback_messages_host_gated :
    ∀ (username : String) (conn : ConnId) (now : ℚ) (clock : String)
      (jam : Jam) (msg : CMsg),
      is_playback_message msg = true →
      handle_message false username conn now clock jam msg
        = (update_heartbeats false conn now jam, []) := by
  intro u conn now clock jam msg h
  cases msg <;> simp [is_playback_message] at h <;> simp [handle_message]

/-- Witness for the C1 amended theorem at a concrete input. -/
theorem playback_messages_host_gated_witness :
    handle_message false "Bob" 1 100 "12:01" jamEx CMsg.host_ended
      = (update_heartbeats false 1 100 jamEx, []) :=
  playback_messages_host_gated "Bob" 1 100 "12:01" jamEx CMsg.host_ended (by decide)

/-! ### Claim C2 -/

/-- C2 counterexample: a guest message parsed at time 100 leaves the
session-level `last_heartbeat` (the field the cleanup sweep consults) at its
old value 0, refuting the claim that every inbound message from any
participant updates the session activity timestamp. -/
theorem guest_message_session_stamp_cex :
    (handle_message false "Bob" 1 100 "12:01" jamEx CMsg.sync_request).1.last_heartbeat = 0
    ∧ (0 : ℚ) ≠ 100 := by
  refine ⟨rfl, by decide⟩

/-- C2 (amended): a parsed message from the host stamps the session-level
`last_heartbeat` with the current time, while a parsed message from a guest
stamps only that guest entry and leaves the session-level timestamp
untouched. -/
theorem heartbeat_update_split :
    ∀ (username : String) (conn : ConnId) (now : ℚ) (clock : String)
      (jam : Jam) (msg : CMsg),
      (handle_message true username conn now clock jam msg).1.last_heartbeat = now
      ∧ (handle_message false username conn now clock jam msg).1.last_heartbeat
          = jam.last_heartbeat
      ∧ (handle_message false username conn now clock jam msg).1.guests
          = touch_guest conn now jam.guests := by
  intro u conn now clock jam msg
  refine ⟨?_, ?_, ?_⟩ <;>
    cases msg <;>
      simp [handle_message, update_heartbeats] <;>
      (try split_ifs) <;>
      (first | rfl | simp)

/-! ### Claim C8 -/

/-- C8 is a code bug: `send_compressed` swallows the send exception, so the
pruning branch of `broadcast_to_guests` (its own comment says "drop guest on
failure") is unreachable.  This theorem evaluates the code: broadcasting
never removes a recipient, even when the raw send on that connection fails,
while delivery is still attempted on every guest. -/
theorem broadcast_send_failure_never_prunes :
    (∀ (dead : List ConnId) (jam : Jam) (msg : String),
        (broadcast_to_guests dead jam msg).1 = jam
        ∧ (broadcast_to_guests dead jam msg).2
            = jam.guests.map (fun g => (g.ws, msg)))
    ∧ (broadcast_to_guests [1] jamTwoGuests "sync").1.guests = [guestBob, guestCarol]
    ∧ send_bytes [1] guestBob.ws = Except.error () := by
  refine ⟨fun dead jam msg => ⟨broadcast_to_guests_fst dead jam msg, rfl⟩, ?_, ?_⟩
  · rw [broadcast_to_guests_fst]; rfl
  · rfl

/-! ### Claim C10 -/

/-- C10: the `is_host` tag of a broadcast chat message is computed by
comparing the sender display name with the current host name — a guest-role
connection whose name equals the host name is tagged as host. -/
theorem chat_is_host_tag_by_name :
    ∀ (dead : List ConnId) (jam : Jam) (username : String) (conn : ConnId)
      (now : ℚ) (clock : String) (m : String),
      validate_message m = true →
      (handle_message false username conn now clock jam (CMsg.chat_message m)).2
        = [Out.chat_all username m clock]
      ∧ ((broadcast_chat_message dead jam username m clock).2.1.is_host = true
          ↔ username = jam.host.name) := by
  intro dead jam u conn now clock m hv
  constructor
  · simp [handle_message, hv]
  · simp [broadcast_chat_message, chat_payload]

/-- Witness for C10: guest-role sender named like the host ("Alice") has
her chat tagged `is_host = true`. -/
theorem chat_is_host_tag_by_name_witness :
    (handle_message false "Alice" 1 100 "12:01" jamEx (CMsg.chat_message "hi")).2
      = [Out.chat_all "Alice" "hi" "12:01"]
    ∧ (broadcast_chat_message [] jamEx "Alice" "hi" "12:01").2.1.is_host = true := by
  have h := chat_is_host_tag_by_name [] jamEx "Alice" 1 100 "12:01" "hi" (by decide)
  exact ⟨h.1, h.2.mpr rfl⟩

/-- Lookup on a cons whose key matches. -/
lemma regFind_cons_self (k : String) (j : Jam) (reg : Registry) :
    regFind ((k, j) :: reg) k = some j := by
  unfold regFind
  rw [List.find?_cons_of_pos _ (by simp)]
  rfl

/-- Lookup skips a cons whose key differs. -/
lemma regFind_cons_ne (k jamId : String) (j : Jam) (reg : Registry)
    (h : k ≠ jamId) : regFind ((k, j) :: reg) jamId = regFind reg jamId := by
  unfold regFind
  rw [List.find?_cons_of_neg _ (by simp [h])]

/-- Lookup through a value filter on a registry with unique keys. -/
lemma regFind_filter (p : Jam → Bool) :
    ∀ (reg : Registry), (reg.map Prod.fst).Nodup → ∀ jamId,
      regFind (reg.filter (fun q => p q.2)) jamId
        = (regFind reg jamId).bind (fun jam => if p jam then some jam else none) := by
  intro reg
  induction reg with
  | nil => intro _ jamId; rfl
  | cons q reg ih =>
      intro hnd jamId
      obtain ⟨k, j⟩ := q
      rw [List.map_cons, List.nodup_cons] at hnd
      rcases eq_or_ne k jamId with hk | hk
      · subst hk
        by_cases hp : p j
        · rw [List.filter_cons, if_pos (by simpa using hp), regFind_cons_self,
            regFind_cons_self]
          simp [hp]
        · rw [List.filter_cons, if_neg (by simpa using hp), regFind_cons_self]
          have hnone : regFind (reg.filter (fun q => p q.2)) k = none := by
            apply regFind_eq_none_of_not_mem
            intro hm
            rw [List.mem_map] at hm
            obtain ⟨a, ha, hafst⟩ := hm
            exact hnd.1 (List.mem_map.mpr ⟨a, (List.mem_filter.mp ha).1, hafst⟩)
          rw [hnone]
          simp [hp]
      · by_cases hp : p j
        · rw [List.filter_cons, if_pos (by simpa using hp),
            regFind_cons_ne _ _ _ _ hk, regFind_cons_ne _ _ _ _ hk]
          exact ih hnd.2 jamId
        · rw [List.filter_cons, if_neg (by simpa using hp),
            regFind_cons_ne _ _ _ _ hk]
          exact ih hnd.2 jamId

/-! ### Claim C3 -/

/-- C3 counterexample: the session under "j" is expired (last activity at
time 0, sweep at time 1000) and its host sits on connection 0, yet the
sweep only attempts to close guest connection 1 — the host connection is
neither notified nor closed, refuting "every one of its connections (host
and guests) is force-closed". -/
theorem cleanup_host_not_closed_cex :
    session_expired 1000 jamEx = true
    ∧ jamEx.host.ws = some 0
    ∧ (cleanup_inactive_sessions 1000 regEx).2 = [1]
    ∧ (0 : ConnId) ∉ (cleanup_inactive_sessions 1000 regEx).2 := by
  have hexp : session_expired 1000 jamEx = true := by
    simp [session_expired, jamEx]
    norm_num
  have hlist : (cleanup_inactive_sessions 1000 regEx).2 = [1] := by
    simp only [cleanup_inactive_sessions, regEx, List.filter_cons, List.filter_nil,
      hexp, if_true]
    simp [jamEx, guestBob]
  refine ⟨hexp, rfl, hlist, ?_⟩
  rw [hlist]
  simp

/-- C3 (amended): on a sweep at time `now`, every session whose
`last_heartbeat` is older than 300 seconds is removed from the registry
and each of its guest connections receives a close attempt; sessions
within the timeout are left in place unchanged.  Only guest connections
are closed — the host connection of an evicted session is not contacted. -/
theorem cleanup_sweep_evicts :
    ∀ (now : ℚ) (reg : Registry), (reg.map Prod.fst).Nodup →
      (∀ jamId jam, regFind reg jamId = some jam →
        (session_expired now jam = true →
          regFind (cleanup_inactive_sessions now reg).1 jamId = none)
        ∧ (session_expired now jam = false →
          regFind (cleanup_inactive_sessions now reg).1 jamId = some jam))
      ∧ (∀ c, c ∈ (cleanup_inactive_sessions now reg).2 ↔
          ∃ q ∈ reg, session_expired now q.2 = true
            ∧ c ∈ q.2.guests.map (fun g => g.ws)) := by
  intro now reg hnd
  constructor
  · intro jamId jam hfind
    have h := regFind_filter (fun j => !(session_expired now j)) reg hnd jamId
    constructor
    · intro hexp
      show regFind (reg.filter fun q => !(session_expired now q.2)) jamId = none
      rw [h, hfind]
      simp [hexp]
    · intro hexp
      show regFind (reg.filter fun q => !(session_expired now q.2)) jamId = some jam
      rw [h, hfind]
      simp [hexp]
  · intro c
    simp only [cleanup_inactive_sessions, List.mem_flatMap, List.mem_filter,
      List.mem_map]
    tauto

/-- Witness for the C3 amended theorem: the expired session "j" is gone
after the sweep. -/
theorem cleanup_sweep_evicts_witness :
    regFind (cleanup_inactive_sessions 1000 regEx).1 "j" = none := by
  have h := cleanup_sweep_evicts 1000 regEx (by simp [regEx])
  exact (h.1 "j" jamEx rfl).1 (by simp [session_expired, jamEx]; norm_num)

/-! ### Claim C5 -/

/-- C5: when the host connection closes, every guest of the session gets
exactly one `jam_ended` delivery attempt and one close attempt, the session
is removed from the registry, and the snapshot route then reports
not-found. -/
theorem host_disconnect_ends_session :
    ∀ (dead : List ConnId) (reg : Registry) (jamId : String) (jam : Jam),
      regFind reg jamId = some jam →
      (handle_host_disconnect dead reg jamId).2.1
          = jam.guests.map (fun g => (g.ws, "jam_ended"))
      ∧ (handle_host_disconnect dead reg jamId).2.2
          = jam.guests.map (fun g => g.ws)
      ∧ regFind (handle_host_disconnect dead reg jamId).1 jamId = none
      ∧ get_jam_playlist (handle_host_disconnect dead reg jamId).1 jamId = none := by
  intro dead reg jamId jam h
  simp only [handle_host_disconnect, h]
  refine ⟨rfl, ?_, ?_, ?_⟩
  · rw [broadcast_to_guests_fst]
  · exact regFind_erase_self _ _
  · simp [get_jam_playlist, regFind_erase_self]

/-- Witness for C5 on the concrete one-guest session. -/
theorem host_disconnect_ends_session_witness :
    (handle_host_disconnect [] regEx "j").2.1 = [(1, "jam_ended")]
    ∧ regFind (handle_host_disconnect [] regEx "j").1 "j" = none := by
  have h := host_disconnect_ends_session [] regEx "j" jamEx rfl
  exact ⟨h.1.trans rfl, h.2.2.1⟩

/-! ### Claim C7 -/

/-- C7 counterexample: the session host is named "Alice" and a new guest
connects with the same name "Alice"; the attempt is accepted as a guest
(not rejected), so a display name may collide with the host name. -/
theorem guest_can_take_host_name_cex :
    (websocket_join regEx "j" "Alice" 5 100 "12:30:00").2 = JoinOutcome.joined false
    ∧ (regFind (websocket_join regEx "j" "Alice" 5 100 "12:30:00").1 "j").map
        (fun jam => jam.guests.map (fun g => g.name)) = some ["Bob", "Alice"]
    ∧ jamEx.host.name = "Alice" := by
  refine ⟨by decide, by decide, rfl⟩

/-- C7 (amended): a guest connection attempt whose display name collides
with an existing guest name in the session is rejected with the
policy-violation close, and the registry — hence every existing
connection — is left untouched; the host name is not part of the check. -/
theorem guest_name_collision_rejected :
    ∀ (reg : Registry) (jamId username : String) (conn : ConnId) (now : ℚ)
      (jc : String) (jam : Jam),
      validate_username username = true →
      regFind reg jamId = some jam →
      jam.host.ws ≠ none →
      jam.guests.any (fun g => g.name == username) = true →
      websocket_join reg jamId username conn now jc
        = (reg, JoinOutcome.rejected "Username already taken") := by
  intro reg jamId u conn now jc jam hv hfind hws hcol
  simp [websocket_join, hv, hfind, hws, hcol]

/-- Witness for the C7 amended theorem: a second "Bob" is turned away and
the registry is unchanged. -/
theorem guest_name_collision_rejected_witness :
    websocket_join regEx "j" "Bob" 7 100 "12:31:00"
      = (regEx, JoinOutcome.rejected "Username already taken") :=
  guest_name_collision_rejected regEx "j" "Bob" 7 100 "12:31:00" jamEx
    (by decide) rfl (by decide) (by decide)

/-! ### Claim C9 -/

/-- C9 counterexample: an accepted `host_update` carrying `volume = 2`
stores 2 into the session — no clamping to the 0..1 range happens. -/
theorem volume_unclamped_cex :
    (handle_message true "Alice" 0 100 "12:01" jamEx
        (CMsg.host_update none none (some 2))).1.volume = 2
    ∧ ¬ ((2 : ℚ) ≤ 1) := by
  constructor
  · norm_num [handle_message, update_heartbeats, jamEx]
  · norm_num

/-- C9 (amended): the volume starts at 1.0 (inside 0..1) at session
creation, and every message handling step keeps it in 0..1 provided the
volume field the client sends (if any) is itself in 0..1 — the code copies
the supplied value without clamping, so the invariant is conditional on
well-behaved inputs. -/
theorem volume_range_conditional :
    (∀ (name clock : String) (now : ℚ), (create_jam name clock now).volume = 1)
    ∧ (∀ (bh : Bool) (username : String) (conn : ConnId) (now : ℚ)
        (clock : String) (jam : Jam) (msg : CMsg),
        0 ≤ jam.volume → jam.volume ≤ 1 → vol_msg_in_range msg = true →
        0 ≤ (handle_message bh username conn now clock jam msg).1.volume
        ∧ (handle_message bh username conn now clock jam msg).1.volume ≤ 1) := by
  constructor
  · intro name clock now; rfl
  · intro bh u conn now clock jam msg h0 h1 hv
    cases bh
    · cases msg <;>
        simp [handle_message, update_heartbeats] <;>
        (try split_ifs) <;>
        exact ⟨h0, h1⟩
    · cases msg with
      | host_update ip pos vol =>
          simp only [handle_message, update_heartbeats]
          cases vol with
          | none => simp <;> split_ifs <;> simp [h0, h1]
          | some v =>
              simp only [vol_msg_in_range, decide_eq_true_eq] at hv
              simp <;> split_ifs <;> simp [h0, h1, hv.1, hv.2]
      | host_init song pl ip pos vol =>
          simp only [handle_message, update_heartbeats]
          cases vol with
          | none => simpa using ⟨h0, h1⟩
          | some v =>
              simp only [vol_msg_in_range, decide_eq_true_eq] at hv
              simpa using hv
      | _ =>
          simp [handle_message, update_heartbeats] <;>
          (try split_ifs) <;>
          exact ⟨h0, h1⟩

/-- Witness for the C9 amended theorem. -/
theorem volume_range_conditional_witness :
    0 ≤ (handle_message true "Alice" 0 100 "12:01" jamEx
          (CMsg.host_update none none none)).1.volume
    ∧ (handle_message true "Alice" 0 100 "12:01" jamEx
          (CMsg.host_update none none none)).1.volume ≤ 1 :=
  volume_range_conditional.2 true "Alice" 0 100 "12:01" jamEx
    (CMsg.host_update none none none)
    (by norm_num [jamEx]) (by norm_num [jamEx]) rfl

/-- The wrap-around index is always inside a non-empty playlist. -/
lemma next_song_index_lt (pl : List Track) (cur : Option Track) (h : pl ≠ []) :
    next_song_index pl cur < pl.length := by
  have hlen : 0 < pl.length := List.length_pos.mpr h
  unfold next_song_index
  cases hidx : pl.findIdx? (song_id_matches cur) with
  | none => exact hlen
  | some i => exact Nat.mod_lt _ hlen

/-! ### Claim C6 -/

/-- C6 counterexample: the host (connection 0) sends the song-ended
message on a session playing track A out of the two-track playlist; the
resulting `song_change` broadcast reaches only guest connection 1 — the
sending host is not among the recipients, refuting "broadcast to all
participants of the session, including the sender". -/
theorem song_ended_excludes_sender_cex :
    (handle_message true "Alice" 0 100 "12:01" jamTwoTracks CMsg.host_ended).2
      = [Out.song_change_to_guests (some trackB) true 0]
    ∧ out_recipients
        (handle_message true "Alice" 0 100 "12:01" jamTwoTracks CMsg.host_ended).1
        (Out.song_change_to_guests (some trackB) true 0) = [1]
    ∧ jamTwoTracks.host.ws = some 0
    ∧ (0 : ConnId) ∉ ([1] : List ConnId) := by
  refine ⟨rfl, rfl, rfl, by decide⟩

/-- C6 (amended): on the host song-ended message with a non-empty
playlist, `current_song` advances to the entry after the first playlist
track whose id matches the current song (wrapping around; restarting at
index 0 when no track matches), `is_playing` becomes true, `position`
becomes 0, and a `song_change` broadcast is attempted on every guest —
i.e. on all participants except the sending host. -/
theorem song_ended_advances :
    ∀ (username : String) (conn : ConnId) (now : ℚ) (clock : String) (jam : Jam),
      jam.playlist ≠ [] →
      (handle_message true username conn now clock jam CMsg.host_ended).1.current_song
          = jam.playlist.get? (next_song_index jam.playlist jam.current_song)
      ∧ (handle_message true username conn now clock jam CMsg.host_ended).1.is_playing = true
      ∧ (handle_message true username conn now clock jam CMsg.host_ended).1.position = 0
      ∧ (handle_message true username conn now clock jam CMsg.host_ended).2
          = [Out.song_change_to_guests
              (jam.playlist.get? (next_song_index jam.playlist jam.current_song)) true 0]
      ∧ out_recipients
            (handle_message true username conn now clock jam CMsg.host_ended).1
            (Out.song_change_to_guests
              (jam.playlist.get? (next_song_index jam.playlist jam.current_song)) true 0)
          = jam.guests.map (fun g => g.ws)
      ∧ (∀ i, jam.playlist.findIdx? (song_id_matches jam.current_song) = some i →
          next_song_index jam.playlist jam.current_song = (i + 1) % jam.playlist.length)
      ∧ (jam.playlist.findIdx? (song_id_matches jam.current_song) = none →
          next_song_index jam.playlist jam.current_song = 0) := by
  intro u conn now clock jam hne
  have hlt := next_song_index_lt jam.playlist jam.current_song hne
  have hsome :
      (jam.playlist[next_song_index jam.playlist jam.current_song]?).isSome = true := by
    rw [List.getElem?_eq_getElem hlt]
    rfl
  have hemp : jam.playlist.isEmpty = false := by
    simpa [List.isEmpty_iff] using hne
  refine ⟨?_, ?_, ?_, ?_, ?_, ?_, ?_⟩
  · simp [handle_message, update_heartbeats, hemp]
  · simp [handle_message, update_heartbeats, hemp, hsome]
  · simp [handle_message, update_heartbeats, hemp]
  · simp [handle_message, update_heartbeats, hemp, hsome]
  · simp [handle_message, update_heartbeats, hemp, out_recipients]
  · intro i hi
    simp [next_song_index, hi]
  · intro hno
    simp [next_song_index, hno]

/-- Witness for the C6 amended theorem on the two-track session. -/
theorem song_ended_advances_witness :
    (handle_message true "Alice" 0 100 "12:01" jamTwoTracks CMsg.host_ended).1.current_song
      = jamTwoTracks.playlist.get?
          (next_song_index jamTwoTracks.playlist jamTwoTracks.current_song)
    ∧ (handle_message true "Alice" 0 100 "12:01" jamTwoTracks CMsg.host_ended).1.is_playing
      = true := by
  have h := song_ended_advances "Alice" 0 100 "12:01" jamTwoTracks (by decide)
  exact ⟨h.1, h.2.1⟩

/-- The first accepted arrival is at least 50ms after `last`. -/
lemma accepted_head_ge :
    ∀ (ts : List ℚ) (last x : ℚ) (rest : List ℚ),
      accepted_update_times last ts = x :: rest → last + 1/20 ≤ x := by
  intro ts
  induction ts with
  | nil => intro last x rest h; simp [accepted_update_times] at h
  | cons t ts ih =>
      intro last x rest h
      simp only [accepted_update_times] at h
      by_cases hc : t - last < 1/20
      · rw [if_pos hc] at h
        exact ih last x rest h
      · rw [if_neg hc] at h
        injection h with h1 _
        push_neg at hc
        rw [← h1]
        linarith

/-- Consecutive accepted arrivals are at least 50ms apart. -/
lemma accepted_chain :
    ∀ (ts : List ℚ) (last : ℚ),
      List.Chain' (fun a b : ℚ => a + 1/20 ≤ b) (accepted_update_times last ts) := by
  intro ts
  induction ts with
  | nil => intro last; simp [accepted_update_times]
  | cons t ts ih =>
      intro last
      simp only [accepted_update_times]
      by_cases hc : t - last < 1/20
      · rw [if_pos hc]; exact ih last
      · rw [if_neg hc]
        rw [List.chain'_cons']
        refine ⟨?_, ih t⟩
        intro y hy
        cases hh : accepted_update_times t ts with
        | nil => rw [hh] at hy; simp at hy
        | cons z zs =>
            rw [hh] at hy
            simp at hy
            subst hy
            exact accepted_head_ge ts t z zs hh

/-- If every arrival is below `U` and `U` is within `n + 1` throttle
windows above `last`, at most `n` arrivals are accepted. -/
lemma accepted_length_le :
    ∀ (ts : List ℚ) (last U : ℚ) (n : ℕ),
      (∀ t ∈ ts, t < U) → U ≤ last + ((n : ℚ) + 1) * (1/20) →
      (accepted_update_times last ts).length ≤ n := by
  intro ts
  induction ts with
  | nil => intro last U n _ _; simp [accepted_update_times]
  | cons t ts ih =>
      intro last U n hlt hU
      simp only [accepted_update_times]
      by_cases hc : t - last < 1/20
      · rw [if_pos hc]
        exact ih last U n (fun x hx => hlt x (List.mem_cons_of_mem _ hx)) hU
      · rw [if_neg hc, List.length_cons]
        push_neg at hc
        have ht : t < U := hlt t (List.mem_cons_self _ _)
        cases n with
        | zero =>
            exfalso
            norm_num at hU
            linarith
        | succ m =>
            have hrec : (accepted_update_times t ts).length ≤ m := by
              apply ih t U m (fun x hx => hlt x (List.mem_cons_of_mem _ hx))
              push_cast at hU ⊢
              linarith
            omega

/-- Arrivals inside one 200ms window yield at most 4 accepted updates. -/
lemma accepted_window_le_four :
    ∀ (ts : List ℚ) (last t0 : ℚ),
      (∀ t ∈ ts, t0 ≤ t ∧ t < t0 + 1/5) →
      (accepted_update_times last ts).length ≤ 4 := by
  intro ts
  induction ts with
  | nil => intro last t0 _; simp [accepted_update_times]
  | cons t ts ih =>
      intro last t0 hw
      simp only [accepted_update_times]
      by_cases hc : t - last < 1/20
      · rw [if_pos hc]
        exact ih last t0 (fun x hx => hw x (List.mem_cons_of_mem _ hx))
      · rw [if_neg hc, List.length_cons]
        have h3 : (accepted_update_times t ts).length ≤ 3 := by
          apply accepted_length_le ts t (t0 + 1/5) 3
          · exact fun x hx => (hw x (List.mem_cons_of_mem _ hx)).2
          · have ht0 := (hw t (List.mem_cons_self _ _)).1
            norm_num
            linarith
        omega

/-- A throttled (dropped) `host_update`: nothing but the heartbeat stamp
changes and nothing is broadcast. -/
lemma handle_host_update_drop (username : String) (conn : ConnId) (now : ℚ)
    (clock : String) (jam : Jam) (ip : Option Bool) (pos vol : Option ℚ)
    (h : now - jam.last_update_time < 1/20) :
    handle_message true username conn now clock jam (CMsg.host_update ip pos vol)
      = ({ jam with last_heartbeat := now }, []) := by
  have h2 : now - jam.last_update_time < 20⁻¹ := by rw [← one_div]; exact h
  simp [handle_message, update_heartbeats, h2]

/-- An accepted `host_update`: the throttle stamp moves to `now` and one
`sync` broadcast is emitted. -/
lemma handle_host_update_accept (username : String) (conn : ConnId) (now : ℚ)
    (clock : String) (jam : Jam) (ip : Option Bool) (pos vol : Option ℚ)
    (h : ¬ (now - jam.last_update_time < 1/20)) :
    handle_message true username conn now clock jam (CMsg.host_update ip pos vol)
      = ({ jam with
            last_heartbeat := now,
            last_update_time := now,
            is_playing := ip.getD jam.is_playing,
            position := pos.getD jam.position,
            volume := vol.getD jam.volume },
         [Out.sync_to_guests jam.current_song (ip.getD jam.is_playing)
            (pos.getD jam.position) (vol.getD jam.volume)]) := by
  have h2 : ¬ (now - jam.last_update_time < 20⁻¹) := by rw [← one_div]; exact h
  simp [handle_message, update_heartbeats, h2]

/-- Unfolding one step of the receive loop. -/
lemma run_messages_cons (bh : Bool) (u : String) (c : ConnId) (clock : String)
    (jam : Jam) (t : ℚ) (m : CMsg) (l : List (ℚ × CMsg)) :
    run_messages bh u c clock jam ((t, m) :: l)
      = ((run_messages bh u c clock (handle_message bh u c t clock jam m).1 l).1,
         (handle_message bh u c t clock jam m).2
           ++ (run_messages bh u c clock (handle_message bh u c t clock jam m).1 l).2) :=
  rfl

/-- Number of `sync` broadcasts over an append. -/
lemma sync_count_append (a b : List Out) :
    sync_count (a ++ b) = sync_count a + sync_count b := by
  simp [sync_count, List.filter_append]

/-- Feeding only `host_update` messages through the loop emits exactly one
`sync` broadcast per accepted arrival time. -/
lemma run_host_updates_sync_count :
    ∀ (l : List (ℚ × CMsg)) (username : String) (conn : ConnId)
      (clock : String) (jam : Jam),
      (∀ p ∈ l, is_host_update p.2 = true) →
      sync_count (run_messages true username conn clock jam l).2
        = (accepted_update_times jam.last_update_time (l.map Prod.fst)).length := by
  intro l
  induction l with
  | nil => intro u c clock jam _; rfl
  | cons p l ih =>
      intro u c clock jam hall
      obtain ⟨t, m⟩ := p
      have hm : is_host_update m = true := hall (t, m) (List.mem_cons_self _ _)
      have hrest : ∀ q ∈ l, is_host_update q.2 = true :=
        fun q hq => hall q (List.mem_cons_of_mem _ hq)
      cases m with
      | host_update ip pos vol =>
          by_cases hc : t - jam.last_update_time < 1/20
          · rw [run_messages_cons, handle_host_update_drop u c t clock jam ip pos vol hc]
            simp only [List.nil_append, List.map_cons]
            rw [ih u c clock _ hrest]
            simp only [accepted_update_times]
            rw [if_pos hc]
          · rw [run_messages_cons, handle_host_update_accept u c t clock jam ip pos vol hc]
            simp only [List.map_cons]
            rw [sync_count_append, ih u c clock _ hrest]
            simp only [accepted_update_times]
            rw [if_neg hc]
            simp [sync_count, is_sync_out]
            omega
      | host_init song pl ip pos vol => exact absurd hm (by simp [is_host_update])
      | song_change song => exact absurd hm (by simp [is_host_update])
      | playlist_update pl => exact absurd hm (by simp [is_host_update])
      | chat_message msg => exact absurd hm (by simp [is_host_update])
      | sync_request => exact absurd hm (by simp [is_host_update])
      | host_seek pos => exact absurd hm (by simp [is_host_update])
      | host_ended => exact absurd hm (by simp [is_host_update])
      | unrecognized => exact absurd hm (by simp [is_host_update])

/-! ### Claim C4 -/

/-- C4: the `host_update` (spec name `player_state_update`) throttle.
(1) An update arriving less than 50ms after the last accepted one is
silently dropped: the session keeps all its playback state including the
throttle stamp (only the heartbeat stamp of C2 moves) and no broadcast is
produced.  (2) Two accepted updates are never within 50ms of each other.
(3) Any number of updates arriving inside one 200ms window (all times in
the half-open interval from t0 to t0 + 200ms) yield at most 4 accepted
mutations, and (4) at most 4 `sync` broadcasts reach the guests — in
particular 100 such messages within 200ms yield at most 4 of each. -/
theorem player_state_update_throttle :
    (∀ (username : String) (conn : ConnId) (now : ℚ) (clock : String)
        (jam : Jam) (ip : Option Bool) (pos vol : Option ℚ),
        now - jam.last_update_time < 1/20 →
        handle_message true username conn now clock jam (CMsg.host_update ip pos vol)
          = ({ jam with last_heartbeat := now }, []))
    ∧ (∀ (last : ℚ) (times : List ℚ),
        List.Chain' (fun a b : ℚ => a + 1/20 ≤ b) (accepted_update_times last times))
    ∧ (∀ (last t0 : ℚ) (times : List ℚ),
        (∀ t ∈ times, t0 ≤ t ∧ t < t0 + 1/5) →
        (accepted_update_times last times).length ≤ 4)
    ∧ (∀ (username : String) (conn : ConnId) (clock : String) (jam : Jam)
        (l : List (ℚ × CMsg)) (t0 : ℚ),
        (∀ p ∈ l, is_host_update p.2 = true) →
        (∀ p ∈ l, t0 ≤ p.1 ∧ p.1 < t0 + 1/5) →
        sync_count (run_messages true username conn clock jam l).2 ≤ 4) := by
  refine ⟨handle_host_update_drop, fun last times => accepted_chain times last,
    fun last t0 times hw => accepted_window_le_four times last t0 hw, ?_⟩
  intro u conn clock jam l t0 hall hw
  rw [run_host_updates_sync_count l u conn clock jam hall]
  apply accepted_window_le_four (l.map Prod.fst) jam.last_update_time t0
  intro t ht
  obtain ⟨p, hp, hpt⟩ := List.mem_map.mp ht
  exact hpt ▸ hw p hp

/-- Witness for C4: a concrete drop, and a concrete two-message burst with
at most 4 sync broadcasts. -/
theorem player_state_update_throttle_witness :
    handle_message true "Alice" 0 (1/100) "12:01" jamEx
        (CMsg.host_update none none none)
      = ({ jamEx with last_heartbeat := 1/100 }, [])
    ∧ sync_count (run_messages true "Alice" 0 "12:01" jamEx
        [((0 : ℚ), CMsg.host_update none none none),
         ((1/100 : ℚ), CMsg.host_update none none none)]).2 ≤ 4 := by
  constructor
  · exact player_state_update_throttle.1 "Alice" 0 (1/100) "12:01" jamEx
      none none none (by norm_num [jamEx])
  · apply player_state_update_throttle.2.2.2 "Alice" 0 "12:01" jamEx _ 0
    · intro p hp
      simp only [List.mem_cons, List.not_mem_nil, or_false] at hp
      rcases hp with rfl | rfl <;> rfl
    · intro p hp
      simp only [List.mem_cons, List.not_mem_nil, or_false] at hp
      rcases hp with rfl | rfl <;> constructor <;> norm_num

end AudioJam
